import Mathlib

/-!
Shallow embedding of the E2ETune-AI4DB tuning code (PostgreSQL knob tuner):
the multi-threaded OLAP workload executor (`tuning_utils/multi_thread.py`),
the SMAC/HEBO tuning strategies (`tuner.py`), the stress-testing tool
(`stress_testing_tool.py`) and the database adapter (`Database.py`),
together with theorems checking the specification's claims about them.

Machine floats of the original code are modelled as rationals, fallible
operations as `Option`/`Except`, and the thread-shared `time_stamp`
dictionary as a function `ℕ → Option ThreadStats`.
-/

namespace E2ETune

/-! ## multi_thread.py -/

/-- `LARGE_INVALID_LATENCY = 1e9` (multi_thread.py line 10). -/
def LARGE_INVALID_LATENCY : ℚ := 10 ^ 9

/-- `ThreadStats` (multi_thread.py lines 32-37): `value` is the number of
queries executed successfully, `type` the sum of query execution times,
`error_count` the number of failed queries (default 0). -/
structure ThreadStats where
  value : ℕ
  type : ℚ
  error_count : ℕ
deriving DecidableEq

/-- Statistics records present in the shared `time_stamp` dict, in worker-id
order (`for i in range(self.thread_num): if i in time_stamp`). -/
def presentStats (ts : ℕ → Option ThreadStats) (n : ℕ) : List ThreadStats :=
  (List.range n).filterMap ts

/-- `total_queries` accumulated in multi_thread.run (line 258). -/
def totalQueries (ts : ℕ → Option ThreadStats) (n : ℕ) : ℕ :=
  ((presentStats ts n).map ThreadStats.value).sum

/-- `total_latency` accumulated in multi_thread.run (line 259). -/
def totalLatency (ts : ℕ → Option ThreadStats) (n : ℕ) : ℚ :=
  ((presentStats ts n).map ThreadStats.type).sum

/-- `total_errors` accumulated in multi_thread.run (line 262). -/
def totalErrors (ts : ℕ → Option ThreadStats) (n : ℕ) : ℕ :=
  ((presentStats ts n).map ThreadStats.error_count).sum

/-- `missing_threads` accumulated in multi_thread.run (line 268). -/
def missingThreads (ts : ℕ → Option ThreadStats) (n : ℕ) : ℕ :=
  ((List.range n).filter (fun i => (ts i).isNone)).length

/-- The dict returned by multi_thread.run (lines 317-320). -/
structure RunResult where
  avg_time_per_query : ℚ
  throughput_qps : ℚ
deriving DecidableEq

/-- multi_thread.run aggregation and metric computation (lines 250-320),
as a function of the collected statistics and the measured wall-clock time. -/
def multiThreadRun (ts : ℕ → Option ThreadStats) (thread_num : ℕ) (wall : ℚ) :
    RunResult :=
  let tq := totalQueries ts thread_num
  let throughput_qps : ℚ := if 0 < wall then (tq : ℚ) / wall else 0
  let avg_latency : ℚ :=
    if 0 < tq then totalLatency ts thread_num / (tq : ℚ) else 0
  if 0 < totalErrors ts thread_num ∨ 0 < missingThreads ts thread_num then
    ⟨LARGE_INVALID_LATENCY, 0⟩
  else
    ⟨avg_latency, throughput_qps⟩

lemma mem_presentStats {ts : ℕ → Option ThreadStats} {n : ℕ} {x : ThreadStats} :
    x ∈ presentStats ts n ↔ ∃ i, i < n ∧ ts i = some x := by
  simp [presentStats, List.mem_filterMap, List.mem_range]

lemma totalErrors_pos_iff {ts : ℕ → Option ThreadStats} {n : ℕ} :
    0 < totalErrors ts n ↔ ∃ i, i < n ∧ ∃ s, ts i = some s ∧ 0 < s.error_count := by
  rw [Nat.pos_iff_ne_zero]
  constructor
  · intro h
    by_contra hno
    push_neg at hno
    apply h
    apply List.sum_eq_zero
    intro x hx
    rcases List.mem_map.mp hx with ⟨s, hs, rfl⟩
    rcases mem_presentStats.mp hs with ⟨i, hi, hsome⟩
    have := hno i hi s hsome
    omega
  · rintro ⟨i, hi, s, hsome, hpos⟩ hzero
    rw [totalErrors, List.sum_eq_zero_iff] at hzero
    have hmem : s.error_count ∈ (presentStats ts n).map ThreadStats.error_count :=
      List.mem_map.mpr ⟨s, mem_presentStats.mpr ⟨i, hi, hsome⟩, rfl⟩
    have := hzero _ hmem
    omega

lemma missingThreads_pos_iff {ts : ℕ → Option ThreadStats} {n : ℕ} :
    0 < missingThreads ts n ↔ ∃ i, i < n ∧ ts i = none := by
  rw [missingThreads, List.length_pos_iff_exists_mem]
  constructor
  · rintro ⟨i, hi⟩
    rw [List.mem_filter, List.mem_range] at hi
    exact ⟨i, hi.1, Option.isNone_iff_eq_none.mp hi.2⟩
  · rintro ⟨i, hi, hnone⟩
    refine ⟨i, ?_⟩
    rw [List.mem_filter, List.mem_range]
    exact ⟨hi, by simp [hnone]⟩

/-- C1: for every OLAP workload execution via multi_thread.run, if any worker's
recorded per-query error count is positive, or any worker id in
`range(thread_num)` has no statistics record, the returned result has
`throughput_qps = 0` and `avg_time_per_query = 10^9`; otherwise the computed
qps and average latency are returned unchanged. -/
theorem C1_olap_invalidation (ts : ℕ → Option ThreadStats) (n : ℕ) (wall : ℚ) :
    (((∃ i, i < n ∧ ∃ s, ts i = some s ∧ 0 < s.error_count) ∨
        (∃ i, i < n ∧ ts i = none)) →
      multiThreadRun ts n wall = ⟨LARGE_INVALID_LATENCY, 0⟩) ∧
    (((∀ i, i < n → ∀ s, ts i = some s → s.error_count = 0) ∧
        (∀ i, i < n → ts i ≠ none)) →
      multiThreadRun ts n wall =
        ⟨if 0 < totalQueries ts n then
            totalLatency ts n / (totalQueries ts n : ℚ) else 0,
         if 0 < wall then (totalQueries ts n : ℚ) / wall else 0⟩) := by
  constructor
  · intro h
    have hcond : 0 < totalErrors ts n ∨ 0 < missingThreads ts n := by
      rcases h with h | h
      · exact Or.inl (totalErrors_pos_iff.mpr h)
      · exact Or.inr (missingThreads_pos_iff.mpr h)
    simp only [multiThreadRun, if_pos hcond]
  · rintro ⟨herr, hmiss⟩
    have hcond : ¬(0 < totalErrors ts n ∨ 0 < missingThreads ts n) := by
      rintro (h | h)
      · rcases totalErrors_pos_iff.mp h with ⟨i, hi, s, hsome, hpos⟩
        have := herr i hi s hsome
        omega
      · rcases missingThreads_pos_iff.mp h with ⟨i, hi, hnone⟩
        exact hmiss i hi hnone
    simp only [multiThreadRun, if_neg hcond]

/-- C1 witness: a concrete run with one worker whose record carries a
positive error count is invalidated. -/
theorem C1_olap_invalidation_witness :
    multiThreadRun (fun _ => some ⟨3, 1, 2⟩) 1 1 = ⟨LARGE_INVALID_LATENCY, 0⟩ :=
  (C1_olap_invalidation (fun _ => some ⟨3, 1, 2⟩) 1 1).1
    (Or.inl ⟨0, Nat.zero_lt_one, ⟨3, 1, 2⟩, rfl, by norm_num⟩)

/-- C7: for every OLAP execution that is not invalidated, the returned
throughput is total queries divided by wall time (0 when wall time is 0),
and the returned average latency is the latency sum divided by total
queries (0 when total queries is 0). -/
theorem C7_metric_computation (ts : ℕ → Option ThreadStats) (n : ℕ) (wall : ℚ)
    (hvalid : totalErrors ts n = 0 ∧ missingThreads ts n = 0) :
    ((wall = 0 → (multiThreadRun ts n wall).throughput_qps = 0) ∧
     (0 < wall → (multiThreadRun ts n wall).throughput_qps =
        (totalQueries ts n : ℚ) / wall)) ∧
    ((totalQueries ts n = 0 → (multiThreadRun ts n wall).avg_time_per_query = 0) ∧
     (0 < totalQueries ts n → (multiThreadRun ts n wall).avg_time_per_query =
        totalLatency ts n / (totalQueries ts n : ℚ))) := by
  obtain ⟨hv1, hv2⟩ := hvalid
  have hcond : ¬(0 < totalErrors ts n ∨ 0 < missingThreads ts n) := by
    rintro (h | h) <;> omega
  simp only [multiThreadRun, if_neg hcond]
  refine ⟨⟨fun hw => ?_, fun hw => ?_⟩, ⟨fun hq => ?_, fun hq => ?_⟩⟩
  · simp [hw]
  · simp [if_pos hw]
  · simp [hq]
  · simp [if_pos hq]

/-- C7 witness: with a single worker having executed 2 queries in total
latency 3 over wall time 4, qps is 2/4 and average latency 3/2. -/
theorem C7_metric_computation_witness :
    (0 < (4 : ℚ) →
      (multiThreadRun (fun _ => some ⟨2, 3, 0⟩) 1 4).throughput_qps =
        (totalQueries (fun _ => some ⟨2, 3, 0⟩) 1 : ℚ) / 4) ∧
    (0 < totalQueries (fun _ => some ⟨2, 3, 0⟩) 1 →
      (multiThreadRun (fun _ => some ⟨2, 3, 0⟩) 1 4).avg_time_per_query =
        totalLatency (fun _ => some ⟨2, 3, 0⟩) 1 /
          (totalQueries (fun _ => some ⟨2, 3, 0⟩) 1 : ℚ)) := by
  have h := C7_metric_computation (fun _ => some ⟨2, 3, 0⟩) 1 4
    (by constructor <;> rfl)
  exact ⟨h.1.2, h.2.2⟩

/-! ### Worker behaviour (one_thread_given_queries.run, lines 64-139) -/

/-- Possible outcomes of a worker's `run` method: it completes its query
loop and stores its statistics (line 115), it hits a fatal exception before
storing (lines 121-126), or it hits a fatal exception after storing. -/
inductive WorkerOutcome where
  | normal (stats : ThreadStats)
  | fatalBeforeStore
  | fatalAfterStore (stats : ThreadStats)
deriving DecidableEq

/-- The record a worker leaves in `time_stamp`: its computed statistics in
the normal and fatal-after-store cases, and the fallback
`ThreadStats(0, 0.0)` (error_count defaulting to 0, lines 125-126) when the
fatal error hit before the store. -/
def workerRecord : WorkerOutcome → ThreadStats
  | .normal s => s
  | .fatalBeforeStore => ⟨0, 0, 0⟩
  | .fatalAfterStore s => s

/-- The `time_stamp` map produced when every worker runs to the end of its
exception handling. -/
def workerTimeStamp (out : ℕ → WorkerOutcome) : ℕ → Option ThreadStats :=
  fun i => some (workerRecord (out i))

/-- C10: a worker hitting a fatal error before storing its statistics
installs the fallback `ThreadStats(0, 0.0)` whose error count is 0; hence
every worker id is present in the results map, and a run in which every
worker fails fatally (so no per-query errors are recorded) is not
invalidated: it returns qps 0 and average latency 0, not the 10^9
sentinel. -/
theorem C10_fatal_fallback :
    workerRecord WorkerOutcome.fatalBeforeStore = ⟨0, 0, 0⟩ ∧
    (workerRecord WorkerOutcome.fatalBeforeStore).error_count = 0 ∧
    (∀ out : ℕ → WorkerOutcome, ∀ i : ℕ, workerTimeStamp out i ≠ none) ∧
    (∀ (out : ℕ → WorkerOutcome) (n : ℕ) (wall : ℚ),
      (∀ i, i < n → out i = WorkerOutcome.fatalBeforeStore) →
      multiThreadRun (workerTimeStamp out) n wall = ⟨0, 0⟩) := by
  refine ⟨rfl, rfl, fun out i => by simp [workerTimeStamp], ?_⟩
  intro out n wall hall
  have hstats : ∀ x ∈ presentStats (workerTimeStamp out) n, x = (⟨0, 0, 0⟩ : ThreadStats) := by
    intro x hx
    rcases mem_presentStats.mp hx with ⟨i, hi, hsome⟩
    rw [workerTimeStamp] at hsome
    rw [hall i hi] at hsome
    simpa [workerRecord] using hsome.symm
  have htq : totalQueries (workerTimeStamp out) n = 0 := by
    apply List.sum_eq_zero
    intro x hx
    rcases List.mem_map.mp hx with ⟨s, hs, rfl⟩
    rw [hstats s hs]
  have hte : totalErrors (workerTimeStamp out) n = 0 := by
    apply List.sum_eq_zero
    intro x hx
    rcases List.mem_map.mp hx with ⟨s, hs, rfl⟩
    rw [hstats s hs]
  have hmt : missingThreads (workerTimeStamp out) n = 0 := by
    rw [missingThreads, List.length_eq_zero]
    rw [List.filter_eq_nil_iff]
    intro i _
    simp [workerTimeStamp]
  have hcond : ¬(0 < totalErrors (workerTimeStamp out) n ∨
      0 < missingThreads (workerTimeStamp out) n) := by
    rintro (h | h) <;> omega
  simp only [multiThreadRun, if_neg hcond, htq]
  norm_num

/-- C10 witness: a concrete run with two workers that both fail fatally
before storing returns qps 0 and average latency 0. -/
theorem C10_fatal_fallback_witness :
    multiThreadRun (workerTimeStamp fun _ => WorkerOutcome.fatalBeforeStore) 2 1 =
      ⟨0, 0⟩ :=
  C10_fatal_fallback.2.2.2 (fun _ => WorkerOutcome.fatalBeforeStore) 2 1
    (fun _ _ => rfl)

/-! ### Workload partitioning (multi_thread.data_pre, lines 167-199) -/

/-- The 3000-query cap of data_pre (lines 186-188). -/
def capQueries (sql : List String) : List String := sql.take 3000

/-- One step of the round-robin loop of data_pre (lines 193-195): append
query `p.2`, whose global index is `p.1`, to worker `p.1 % n`'s list. -/
def rrStep (n : ℕ) (d : ℕ → List String) (p : ℕ × String) : ℕ → List String :=
  fun w => if w = p.1 % n then (d w).concat p.2 else d w

/-- multi_thread.data_pre partitioning (lines 185-195): cap the parsed query
list at 3000 entries, then distribute them round-robin over the workers. -/
def dataPre (sql : List String) (n : ℕ) : ℕ → List String :=
  (capQueries sql).enum.foldl (rrStep n) (fun _ => [])

/-- Number of indices below `q` that are congruent to `w` modulo `n`:
the size worker `w`'s partition must have. -/
def modCount (n q w : ℕ) : ℕ :=
  ((List.range q).filter (fun i => i % n = w)).length

lemma foldl_rrStep (n : ℕ) (l : List (ℕ × String)) :
    ∀ (d : ℕ → List String) (w : ℕ),
      (l.foldl (rrStep n) d) w =
        d w ++ (l.filter (fun p => p.1 % n = w)).map Prod.snd := by
  induction l with
  | nil => intro d w; simp
  | cons a l ih =>
    intro d w
    rw [List.foldl_cons, ih]
    by_cases h : a.1 % n = w
    · simp [rrStep, h, List.filter_cons, List.concat_eq_append]
    · have h2 : ¬w = a.1 % n := fun hwa => h hwa.symm
      simp [rrStep, h, h2, List.filter_cons]

lemma length_filter_enumFrom (n w : ℕ) : ∀ (l : List String) (k : ℕ),
    ((List.enumFrom k l).filter (fun p => p.1 % n = w)).length =
      ((List.range' k l.length).filter (fun i => i % n = w)).length := by
  intro l
  induction l with
  | nil => intro k; simp
  | cons a l ih =>
    intro k
    rw [List.enumFrom_cons, List.length_cons, List.range'_succ,
      List.filter_cons, List.filter_cons]
    by_cases h : k % n = w <;> simp [h, ih (k + 1)]

lemma dataPre_length (sql : List String) (n w : ℕ) :
    (dataPre sql n w).length = modCount n (min 3000 sql.length) w := by
  have hcap : (capQueries sql).length = min 3000 sql.length := by
    simp [capQueries]
  rw [dataPre, foldl_rrStep, List.nil_append, List.length_map]
  rw [show (capQueries sql).enum = List.enumFrom 0 (capQueries sql) from rfl]
  rw [length_filter_enumFrom, hcap, modCount, List.range_eq_range']

lemma modCount_succ (n q w : ℕ) :
    modCount n (q + 1) w = modCount n q w + if q % n = w then 1 else 0 := by
  rw [modCount, modCount, List.range_succ, List.filter_append,
    List.length_append, List.filter_cons]
  by_cases h : q % n = w <;> simp [h]

lemma dvd_iff_mod_eq (n q w : ℕ) (hw : w < n) :
    n ∣ (q + n - w) ↔ q % n = w := by
  constructor
  · rintro ⟨k, hk⟩
    have h1 : q + n = n * k + w := by omega
    rcases Nat.eq_zero_or_pos k with hk0 | hk0
    · rw [hk0, Nat.mul_zero] at h1; omega
    · obtain ⟨m, rfl⟩ : ∃ m, k = m + 1 := ⟨k - 1, by omega⟩
      have hmul : n * (m + 1) = n * m + n := by ring
      have hq : q = n * m + w := by omega
      rw [hq, Nat.mul_add_mod]
      exact Nat.mod_eq_of_lt hw
  · intro h
    refine ⟨q / n + 1, ?_⟩
    have hdm := Nat.div_add_mod q n
    rw [h] at hdm
    have hmul : n * (q / n + 1) = n * (q / n) + n := by ring
    omega

lemma modCount_eq (n : ℕ) (w : ℕ) (hw : w < n) :
    ∀ q, modCount n q w = (q + n - (w + 1)) / n := by
  intro q
  induction q with
  | zero =>
    have : modCount n 0 w = 0 := by simp [modCount]
    rw [this, Nat.div_eq_of_lt (by omega)]
  | succ q ih =>
    rw [modCount_succ, ih]
    have harg : q + 1 + n - (w + 1) = (q + n - (w + 1)) + 1 := by omega
    rw [harg, Nat.succ_div]
    have harg2 : q + n - (w + 1) + 1 = q + n - w := by omega
    rw [harg2]
    by_cases h : q % n = w
    · rw [if_pos ((dvd_iff_mod_eq n q w hw).mpr h), if_pos h]
    · rw [if_neg (fun hd => h ((dvd_iff_mod_eq n q w hw).mp hd)), if_neg h]

lemma modCount_floor_ceil (n q w : ℕ) (hn : 0 < n) (hw : w < n) :
    modCount n q w = q / n ∨ modCount n q w = (q + n - 1) / n := by
  rw [modCount_eq n w hw q]
  have h1 : q / n ≤ (q + n - (w + 1)) / n := Nat.div_le_div_right (by omega)
  have h2 : (q + n - (w + 1)) / n ≤ (q + n - 1) / n := Nat.div_le_div_right (by omega)
  have h3 : (q + n - 1) / n ≤ q / n + 1 := by
    have hr : (q + n) / n = q / n + 1 := Nat.add_div_right q hn
    calc (q + n - 1) / n ≤ (q + n) / n := Nat.div_le_div_right (by omega)
    _ = q / n + 1 := hr
  omega

lemma modCount_sum (n : ℕ) (hn : 0 < n) :
    ∀ q, (Finset.range n).sum (fun w => modCount n q w) = q := by
  intro q
  induction q with
  | zero => simp [modCount]
  | succ q ih =>
    have hstep : ∀ w ∈ Finset.range n,
        modCount n (q + 1) w = modCount n q w + if q % n = w then 1 else 0 :=
      fun w _ => modCount_succ n q w
    rw [Finset.sum_congr rfl hstep, Finset.sum_add_distrib, ih,
      Finset.sum_ite_eq (Finset.range n) (q % n) (fun _ => 1),
      if_pos (Finset.mem_range.mpr (Nat.mod_lt q hn))]

/-- C6: with `n > 0` workers, data_pre assigns query `i` (of the capped list)
to worker `i mod n`; consequently the partition sizes sum to
`min(Q, 3000)` and every worker's partition size is the floor or the
ceiling of `Q' / n` where `Q' = min(Q, 3000)`. -/
theorem C6_partitioning (sql : List String) (n : ℕ) (hn : 0 < n) :
    (∀ w, dataPre sql n w =
        ((capQueries sql).enum.filter (fun p => p.1 % n = w)).map Prod.snd) ∧
    (Finset.range n).sum (fun w => (dataPre sql n w).length) =
      min sql.length 3000 ∧
    (∀ w, w < n →
      (dataPre sql n w).length = min sql.length 3000 / n ∨
      (dataPre sql n w).length = (min sql.length 3000 + n - 1) / n) := by
  refine ⟨fun w => ?_, ?_, fun w hw => ?_⟩
  · rw [dataPre, foldl_rrStep, List.nil_append]
  · have hsum : (Finset.range n).sum (fun w => (dataPre sql n w).length) =
        (Finset.range n).sum (fun w => modCount n (min 3000 sql.length) w) :=
      Finset.sum_congr rfl (fun w _ => dataPre_length sql n w)
    rw [hsum, modCount_sum n hn, Nat.min_comm]
  · rw [dataPre_length, Nat.min_comm sql.length 3000]
    exact modCount_floor_ceil n (min 3000 sql.length) w hn hw

/-- C6 witness: three queries over two workers; the partition sizes sum to
`min 3 3000 = 3`, and worker 0's size is the ceiling `⌈3/2⌉ = 2`. -/
theorem C6_partitioning_witness :
    (Finset.range 2).sum (fun w => (dataPre ["a;", "b;", "c;"] 2 w).length) =
      min (["a;", "b;", "c;"].length) 3000 ∧
    ((dataPre ["a;", "b;", "c;"] 2 0).length = min (["a;", "b;", "c;"].length) 3000 / 2 ∨
      (dataPre ["a;", "b;", "c;"] 2 0).length =
        (min (["a;", "b;", "c;"].length) 3000 + 2 - 1) / 2) :=
  ⟨(C6_partitioning ["a;", "b;", "c;"] 2 (by norm_num)).2.1,
   (C6_partitioning ["a;", "b;", "c;"] 2 (by norm_num)).2.2 0 (by norm_num)⟩

/-! ## tuner.py: SMAC strategy (Tuner._smac, lines 124-296) -/

/-- `EarlyStopSignal` (tuner.py lines 23-25). -/
inductive EarlyStopSignal where
  | signal
deriving DecidableEq

/-- The mutable early-stopping state of Tuner._smac (lines 125-130):
`count` is the evaluation counter, `best_cost` the tracked minimum
objective (`none` standing for `float('inf')`), `plateau` the number of
iterations without improvement, `should_stop` the stop flag. -/
structure SmacState where
  count : ℕ
  best_cost : Option ℚ
  plateau : ℕ
  should_stop : Bool
deriving DecidableEq

/-- The initial early-stopping state (lines 125-130). -/
def initSmacState : SmacState := ⟨0, none, 0, false⟩

/-- `PLATEAU_ITERATIONS = int(tuning_config.get('early_stop_plateau', 50))`
(line 131). -/
def plateauIterations (early_stop_plateau : Option ℕ) : ℕ :=
  early_stop_plateau.getD 50

/-- `result < early_stop_state['best_cost']`, where the initial best is
`float('inf')` (line 157). -/
def costLt (r : ℚ) : Option ℚ → Bool
  | none => true
  | some c => decide (r < c)

/-- `result = -perf if perf > 0 else perf`: the objective both strategies
minimise (tuner.py lines 153 and 433). -/
def negObjective (perf : ℚ) : ℚ :=
  if 0 < perf then -perf else perf

/-- One call of the SMAC objective_function (tuner.py lines 133-176),
driven by the measured performance `perf` of the evaluated configuration:
raises `EarlyStopSignal` when the stop flag is already set, otherwise
returns the updated early-stopping state and the objective value. -/
def objectiveFunction (P : ℕ) (s : SmacState) (perf : ℚ) :
    Except EarlyStopSignal (SmacState × ℚ) :=
  if s.should_stop then .error .signal
  else
    let count := s.count + 1
    let result : ℚ := negObjective perf
    if costLt result s.best_cost then
      .ok (⟨count, some result, 0, decide (P ≤ 0)⟩, result)
    else
      .ok (⟨count, s.best_cost, s.plateau + 1, decide (P ≤ s.plateau + 1)⟩, result)

/-- The early-stopping state after `k` calls of the objective function with
a constant measured performance `c`, starting from the initial state; a
call that raises leaves the state unchanged. -/
def objIter (P : ℕ) (c : ℚ) : ℕ → SmacState
  | 0 => initSmacState
  | k + 1 =>
    match objectiveFunction P (objIter P c k) c with
    | .ok (s, _) => s
    | .error _ => objIter P c k

/-- The `early_stopped` field written to best_config.json (line 263). -/
def bestConfigEarlyStopped (s : SmacState) : Bool :=
  s.should_stop

/-- C2: each SMAC evaluation updates the best cost and resets the plateau
counter on strict improvement, and increments the counter otherwise; the
stop flag is set exactly when the counter reaches `plateau_iterations`
(default 50 when `early_stop_plateau` is absent), and the sentinel
exception is raised by the next call, unwinding the optimizer; with
`early_stop_plateau = 3` and a constant objective, exactly 4 evaluations
occur (one improvement plus 3 non-improvements), the 5th call raises, and
best_config.json records `early_stopped = true`. -/
theorem C2_smac_early_stop :
    (∀ (P : ℕ) (s : SmacState) (c : ℚ) (s' : SmacState) (r : ℚ),
      objectiveFunction P s c = .ok (s', r) →
        s'.count = s.count + 1 ∧
        (costLt r s.best_cost = true → s'.best_cost = some r ∧ s'.plateau = 0) ∧
        (costLt r s.best_cost = false →
          s'.best_cost = s.best_cost ∧ s'.plateau = s.plateau + 1) ∧
        (s'.should_stop = true ↔ P ≤ s'.plateau)) ∧
    (∀ (P : ℕ) (s : SmacState) (c : ℚ), s.should_stop = true →
      objectiveFunction P s c = .error .signal) ∧
    plateauIterations none = 50 ∧
    (∀ c : ℚ,
      (objIter (plateauIterations (some 3)) c 1).best_cost = some (negObjective c) ∧
      (objIter (plateauIterations (some 3)) c 1).plateau = 0 ∧
      (objIter (plateauIterations (some 3)) c 4).count = 4 ∧
      (objIter (plateauIterations (some 3)) c 4).plateau = 3 ∧
      bestConfigEarlyStopped (objIter (plateauIterations (some 3)) c 4) = true ∧
      objectiveFunction (plateauIterations (some 3))
        (objIter (plateauIterations (some 3)) c 4) c =
          .error EarlyStopSignal.signal) := by
  refine ⟨?_, ?_, rfl, ?_⟩
  · intro P s c s' r hok
    rw [objectiveFunction] at hok
    by_cases hstop : s.should_stop
    · simp [hstop] at hok
    · simp only [hstop, Bool.false_eq_true, if_false] at hok
      by_cases himp : costLt (negObjective c) s.best_cost
      · rw [if_pos himp] at hok
        obtain ⟨rfl, rfl⟩ : (⟨s.count + 1, some (negObjective c), 0,
            decide (P ≤ 0)⟩ : SmacState) = s' ∧ negObjective c = r := by
          constructor <;> [exact congrArg Prod.fst (Except.ok.inj hok);
            exact congrArg Prod.snd (Except.ok.inj hok)]
        refine ⟨rfl, fun _ => ⟨rfl, rfl⟩, fun hf => ?_, by simp⟩
        rw [himp] at hf
        exact absurd hf (by simp)
      · rw [if_neg himp] at hok
        obtain ⟨rfl, rfl⟩ : (⟨s.count + 1, s.best_cost, s.plateau + 1,
            decide (P ≤ s.plateau + 1)⟩ : SmacState) = s' ∧ negObjective c = r := by
          constructor <;> [exact congrArg Prod.fst (Except.ok.inj hok);
            exact congrArg Prod.snd (Except.ok.inj hok)]
        rw [Bool.not_eq_true] at himp
        refine ⟨rfl, fun ht => ?_, fun _ => ⟨rfl, rfl⟩, by simp⟩
        rw [himp] at ht
        exact absurd ht (by simp)
  · intro P s c hstop
    rw [objectiveFunction, if_pos hstop]
  · intro c
    have hP : plateauIterations (some 3) = 3 := rfl
    have h1 : objIter (plateauIterations (some 3)) c 1 =
        ⟨1, some (negObjective c), 0, false⟩ := by
      rw [show (1 : ℕ) = 0 + 1 from rfl, objIter, objIter]
      simp [objectiveFunction, initSmacState, costLt, hP]
    have h2 : objIter (plateauIterations (some 3)) c 2 =
        ⟨2, some (negObjective c), 1, false⟩ := by
      rw [show (2 : ℕ) = 1 + 1 from rfl, objIter, h1]
      simp [objectiveFunction, costLt, hP]
    have h3 : objIter (plateauIterations (some 3)) c 3 =
        ⟨3, some (negObjective c), 2, false⟩ := by
      rw [show (3 : ℕ) = 2 + 1 from rfl, objIter, h2]
      simp [objectiveFunction, costLt, hP]
    have h4 : objIter (plateauIterations (some 3)) c 4 =
        ⟨4, some (negObjective c), 3, true⟩ := by
      rw [show (4 : ℕ) = 3 + 1 from rfl, objIter, h3]
      simp [objectiveFunction, costLt, hP]
    rw [h1, h4]
    refine ⟨rfl, rfl, rfl, rfl, rfl, ?_⟩
    rw [objectiveFunction]
    rfl

/-- C2 witness: a concrete improving evaluation increments the counter, a
state with the stop flag set raises the sentinel, and 4 evaluations of a
constant objective with plateau 3 set `early_stopped = true`. -/
theorem C2_smac_early_stop_witness :
    ((⟨1, some (-5), 0, false⟩ : SmacState).count = initSmacState.count + 1) ∧
    objectiveFunction 3 ⟨0, none, 0, true⟩ 5 = .error EarlyStopSignal.signal ∧
    (objIter (plateauIterations (some 3)) 5 4).count = 4 ∧
    bestConfigEarlyStopped (objIter (plateauIterations (some 3)) 5 4) = true := by
  have hok : objectiveFunction 3 initSmacState 5 =
      .ok (⟨1, some (-5), 0, false⟩, -5) := by
    norm_num [objectiveFunction, initSmacState, costLt, negObjective]
  exact ⟨(C2_smac_early_stop.1 3 initSmacState 5 ⟨1, some (-5), 0, false⟩ (-5) hok).1,
    C2_smac_early_stop.2.1 3 ⟨0, none, 0, true⟩ 5 rfl,
    (C2_smac_early_stop.2.2.2 5).2.2.1,
    (C2_smac_early_stop.2.2.2 5).2.2.2.2.1⟩

/-! ## Database.py -/

/-- Database.change_knob (Database.py lines 264-310), as a function of the
success of each per-knob `ALTER SYSTEM SET` statement and of what the
restart would return if performed. Returns the boolean result together
with whether the restart was performed. -/
def changeKnob (setResults : List Bool) (restartOk : Bool) : Bool × Bool :=
  let success := setResults.foldl (fun acc ok => acc && ok) true
  if success then (restartOk, true) else (false, false)

lemma foldl_and_eq_all (l : List Bool) :
    ∀ a : Bool, l.foldl (fun acc ok => acc && ok) a = (a && l.all id) := by
  induction l with
  | nil => intro a; simp
  | cons b l ih => intro a; rw [List.foldl_cons, ih, List.all_cons]; simp [Bool.and_assoc]

/-- C4: change_knob returns true iff every per-knob SET succeeded and the
subsequent restart succeeded; when some SET fails the restart is skipped
and false is returned. -/
theorem C4_change_knob (setResults : List Bool) (restartOk : Bool) :
    ((changeKnob setResults restartOk).1 = true ↔
      (∀ b ∈ setResults, b = true) ∧ restartOk = true) ∧
    ((∃ b ∈ setResults, b = false) →
      (changeKnob setResults restartOk).2 = false ∧
      (changeKnob setResults restartOk).1 = false) := by
  have hall : setResults.foldl (fun acc ok => acc && ok) true = setResults.all id := by
    rw [foldl_and_eq_all]; simp
  constructor
  · rw [changeKnob]
    by_cases h : setResults.foldl (fun acc ok => acc && ok) true
    · rw [if_pos h]
      rw [hall, List.all_eq_true] at h
      simp only [h, true_and]
      constructor
      · exact fun hr => ⟨fun b hb => h b hb, hr⟩
      · exact fun hr => hr.2
    · rw [if_neg h]
      rw [hall] at h
      simp only [Bool.not_eq_true, List.all_eq_false] at h
      rcases h with ⟨b, hb, hbf⟩
      constructor
      · intro hfalse; exact absurd hfalse (by simp)
      · rintro ⟨hforall, -⟩
        have hbt := hforall b hb
        simp [hbt] at hbf
  · rintro ⟨b, hb, hbf⟩
    rw [changeKnob]
    have h : setResults.foldl (fun acc ok => acc && ok) true = false := by
      rw [hall, List.all_eq_false]
      exact ⟨b, hb, by simp [hbf]⟩
    rw [h]
    simp

/-- C4 witness: with one failed SET the restart is skipped and false is
returned, even for a restart that would succeed. -/
theorem C4_change_knob_witness :
    (changeKnob [true, false] true).2 = false ∧
    (changeKnob [true, false] true).1 = false :=
  (C4_change_knob [true, false] true).2 ⟨false, by simp, rfl⟩

/-- The `for attempt in range(max_retries)` loop of Database.get_conn
(lines 56-74): returns the index of the first successful attempt among the
next `fuel` attempts starting at `i`, `none` when they all fail. -/
def connAttempts (attempts : ℕ → Bool) : ℕ → ℕ → Option ℕ
  | _, 0 => none
  | i, fuel + 1 => if attempts i then some i else connAttempts attempts (i + 1) fuel

/-- Observable outcome of Database.get_conn (lines 48-97): whether a
connection is returned (`result = true`) or the final exception is raised,
how many connection attempts were made, whether postgresql.auto.conf was
removed, and how many 2-second sleeps happened. -/
structure ConnTrace where
  result : Bool
  attemptsMade : ℕ
  purged : Bool
  sleeps : ℕ
deriving DecidableEq

/-- Database.get_conn (lines 48-97): try `max_retries` attempts, sleeping
2 s between consecutive attempts; if they all fail, remove
postgresql.auto.conf (line 77), sleep 2 s, and make one final attempt,
raising iff it fails. -/
def getConn (attempts : ℕ → Bool) (max_retries : ℕ) : ConnTrace :=
  match connAttempts attempts 0 max_retries with
  | some i => ⟨true, i + 1, false, i⟩
  | none => ⟨attempts max_retries, max_retries + 1, true, max_retries⟩

lemma connAttempts_three (attempts : ℕ → Bool) :
    connAttempts attempts 0 3 =
      if attempts 0 then some 0
      else if attempts 1 then some 1
      else if attempts 2 then some 2
      else none := by
  rw [connAttempts, connAttempts, connAttempts, connAttempts]

/-- C5: get_conn with `max_retries = 3` retries failed attempts with a
2-second backoff (one sleep per retry); only when all 3 loop attempts fail
does it purge postgresql.auto.conf and make exactly one further attempt,
raising iff that final attempt fails; a successful loop attempt returns
the connection without purging. -/
theorem C5_get_conn (attempts : ℕ → Bool) :
    ((∃ i, i < 3 ∧ attempts i = true) →
      (getConn attempts 3).result = true ∧ (getConn attempts 3).purged = false) ∧
    ((∀ i, i < 3 → attempts i = false) →
      (getConn attempts 3).purged = true ∧
      (getConn attempts 3).attemptsMade = 4 ∧
      (getConn attempts 3).result = attempts 3) ∧
    (getConn attempts 3).sleeps = (getConn attempts 3).attemptsMade - 1 := by
  refine ⟨?_, ?_, ?_⟩
  · rintro ⟨i, hi, hset⟩
    have hsome : ∃ j, connAttempts attempts 0 3 = some j := by
      rw [connAttempts_three]
      by_cases h0 : attempts 0
      · exact ⟨0, by simp [h0]⟩
      · by_cases h1 : attempts 1
        · exact ⟨1, by simp [h0, h1]⟩
        · by_cases h2 : attempts 2
          · exact ⟨2, by simp [h0, h1, h2]⟩
          · exfalso
            interval_cases i <;> simp_all
    rcases hsome with ⟨j, hj⟩
    rw [getConn, hj]
    exact ⟨rfl, rfl⟩
  · intro hfail
    have hnone : connAttempts attempts 0 3 = none := by
      rw [connAttempts_three]
      simp [hfail 0 (by omega), hfail 1 (by omega), hfail 2 (by omega)]
    rw [getConn, hnone]
    exact ⟨rfl, rfl, rfl⟩
  · rw [getConn]
    rcases h : connAttempts attempts 0 3 with - | j <;> simp

/-- C5 witness: when the first two attempts fail and the third succeeds,
the connection is returned without purging; when all loop attempts fail
and the post-purge attempt succeeds, the purge happened and no exception is
raised. -/
theorem C5_get_conn_witness :
    ((getConn (fun i => decide (i = 2)) 3).result = true ∧
      (getConn (fun i => decide (i = 2)) 3).purged = false) ∧
    ((getConn (fun i => decide (i = 3)) 3).purged = true ∧
      (getConn (fun i => decide (i = 3)) 3).attemptsMade = 4 ∧
      (getConn (fun i => decide (i = 3)) 3).result = (fun i => decide (i = 3)) 3) :=
  ⟨(C5_get_conn (fun i => decide (i = 2))).1 ⟨2, by norm_num⟩,
   (C5_get_conn (fun i => decide (i = 3))).2.1 (by decide)⟩

/-! ## stress_testing_tool.py: offline-sample record (lines 101-109) -/

/-- The offline-sample entry appended by test_config: the normalised
objective pair and the internal metrics fetched for the iteration. -/
structure OfflineEntry where
  y : List ℚ
  inner_metrics : List (String × ℚ)
deriving DecidableEq

/-- `temp_config['y'] = [-y, 1/(-y)] if y != 0 else [0, 0]`
(stress_testing_tool.py line 106). -/
def offlineY (y : ℚ) : List ℚ :=
  if y ≠ 0 then [-y, 1 / (-y)] else [0, 0]

/-- The offline-sample write of test_config (lines 102-109): performed for
every tool except `surrogate`, with the fetched internal metrics attached. -/
def testConfigOffline (tool : String) (p : ℚ) (metrics : List (String × ℚ)) :
    Option OfflineEntry :=
  if tool ≠ "surrogate" then some ⟨offlineY p, metrics⟩ else none

/-- C9: every non-surrogate evaluation with measured performance `p ≠ 0`
appends an offline-sample entry carrying `y = [-p, 1/(-p)]` together with
the iteration's internal metrics — an encoding that is a deterministic
function of `p` — and the write is skipped when the tool is `surrogate`. -/
theorem C9_offline_encoding (tool : String) (p : ℚ)
    (metrics : List (String × ℚ)) (htool : tool ≠ "surrogate") (hp : p ≠ 0) :
    testConfigOffline tool p metrics = some ⟨[-p, 1 / (-p)], metrics⟩ ∧
    (∀ metrics2 : List (String × ℚ),
      testConfigOffline "surrogate" p metrics2 = none) := by
  constructor
  · rw [testConfigOffline, if_pos htool, offlineY, if_pos hp]
  · intro metrics2
    rw [testConfigOffline, if_neg (by simp)]

/-- C9 witness: the dwg tool at performance 7 writes `y = [-7, -1/7]` with
the metrics attached, and the surrogate tool writes nothing. -/
theorem C9_offline_encoding_witness :
    testConfigOffline "dwg" 7 [("blks_hit", 3)] =
      some ⟨[-7, 1 / (-7)], [("blks_hit", 3)]⟩ ∧
    testConfigOffline "surrogate" 7 [] = none :=
  ⟨(C9_offline_encoding "dwg" 7 [("blks_hit", 3)] (by simp) (by norm_num)).1,
   (C9_offline_encoding "dwg" 7 [("blks_hit", 3)] (by simp) (by norm_num)).2 []⟩

/-! ## tuner.py: HEBO strategy (Tuner._hebo, lines 298-480) -/

/-- A knob definition from the knob config (`type`, range, default),
as consumed by Tuner._hebo. -/
structure KnobDetail where
  type : String
  min : ℚ
  max : ℚ
  default : ℚ
deriving DecidableEq

/-- The names of the tunable parameters of the HEBO design space
(lines 309-329): knobs with a non-degenerate range (`min ≠ max`, constants
are skipped) whose type is `integer` or `float`. -/
def tunableParams (knobs : List (String × KnobDetail)) : List String :=
  (knobs.filter (fun p =>
    p.2.min ≠ p.2.max ∧ (p.2.type = "integer" ∨ p.2.type = "float"))).map
    Prod.fst

/-- `default_config = {name: detail['default'] for ...}` (line 378): the
configuration built from every knob's default value. -/
def defaultConfig (knobs : List (String × KnobDetail)) : List (String × ℚ) :=
  knobs.map (fun p => (p.1, p.2.default))

/-- Restriction of a configuration to the tunable parameters, as passed to
`hebo.observe` (lines 387 and 437). -/
def tunableRestrict (cfg : List (String × ℚ))
    (knobs : List (String × KnobDetail)) : List (String × ℚ) :=
  cfg.filter (fun p => p.1 ∈ tunableParams knobs)

/-- A runhistory.jsonl object; `Option` fields model JSON keys present only
in some entries. -/
structure HistoryEntry where
  iteration : Option ℕ
  config : List (String × ℚ)
  cost : ℚ
  performance : Option ℚ
  note : Option String
deriving DecidableEq

/-- The JSON keys of a history entry, in the order the code writes them
(lines 400-406 for the default entry, 444-447 for loop entries). -/
def entryKeys (e : HistoryEntry) : List String :=
  (if e.iteration.isSome then ["iteration"] else []) ++ ["config", "cost"] ++
    (if e.performance.isSome then ["performance"] else []) ++
    (if e.note.isSome then ["note"] else [])

/-- Observable events of Tuner._hebo, in program order. -/
inductive HeboEvent where
  | eval (cfg : List (String × ℚ)) (iteration : ℕ)
  | observe (point : List (String × ℚ))
  | suggest
  | writeHistory (e : HistoryEntry)
  | writeBestConfig
deriving DecidableEq

/-- The history entry written for the default evaluation (lines 399-407). -/
def defaultEntry (knobs : List (String × KnobDetail)) (dperf : ℚ) :
    HistoryEntry :=
  ⟨some 0, defaultConfig knobs, negObjective dperf, some dperf,
    some "DEFAULT_CONFIG"⟩

/-- The history entry written inside the optimisation loop (lines 443-448):
only the `config` and `cost` keys. -/
def loopEntry (cfg : List (String × ℚ)) (cost : ℚ) : HistoryEntry :=
  ⟨none, cfg, cost, none, none⟩

/-- The configuration evaluated at loop iteration `i + 1` (lines 418-424):
the optimizer's suggestion with the constant knobs added back. -/
def loopConfig (knobs : List (String × KnobDetail))
    (suggestions : ℕ → List (String × ℚ)) (i : ℕ) : List (String × ℚ) :=
  suggestions i ++
    (knobs.filter (fun p => p.2.min = p.2.max)).map (fun p => (p.1, p.2.min))

/-- The events of loop iteration `i` (lines 413-455): suggest, evaluate,
observe, append the entry to runhistory.jsonl. -/
def heboIterEvents (knobs : List (String × KnobDetail))
    (suggestions : ℕ → List (String × ℚ)) (perfOf : ℕ → ℚ) (i : ℕ) :
    List HeboEvent :=
  [.suggest,
   .eval (loopConfig knobs suggestions i) (i + 1),
   .observe (tunableRestrict (loopConfig knobs suggestions i) knobs),
   .writeHistory (loopEntry (loopConfig knobs suggestions i)
     (negObjective (perfOf (i + 1))))]

/-- The event trace of Tuner._hebo (lines 372-477), driven by the measured
performance `perfOf i` of iteration `i` and by the optimizer's suggestions:
the default configuration is evaluated, observed and logged first
(iteration 0), then the optimisation loop runs, then best_config.json is
written. -/
def heboTrace (knobs : List (String × KnobDetail))
    (suggestions : ℕ → List (String × ℚ)) (perfOf : ℕ → ℚ) (runcount : ℕ) :
    List HeboEvent :=
  [.eval (defaultConfig knobs) 0,
   .observe (tunableRestrict (defaultConfig knobs) knobs),
   .writeHistory (defaultEntry knobs (perfOf 0))] ++
  ((List.range runcount).map (heboIterEvents knobs suggestions perfOf)).flatten ++
  [.writeBestConfig]

/-- The sequence of runhistory.jsonl lines of a trace, in write order. -/
def historyLines (tr : List HeboEvent) : List HistoryEntry :=
  tr.filterMap (fun ev =>
    match ev with
    | .writeHistory e => some e
    | _ => none)

lemma historyLines_append (l₁ l₂ : List HeboEvent) :
    historyLines (l₁ ++ l₂) = historyLines l₁ ++ historyLines l₂ := by
  rw [historyLines, historyLines, historyLines, List.filterMap_append]

lemma historyLines_heboTrace (knobs : List (String × KnobDetail))
    (suggestions : ℕ → List (String × ℚ)) (perfOf : ℕ → ℚ) (runcount : ℕ) :
    historyLines (heboTrace knobs suggestions perfOf runcount) =
      defaultEntry knobs (perfOf 0) ::
        (List.range runcount).map (fun i =>
          loopEntry (loopConfig knobs suggestions i)
            (negObjective (perfOf (i + 1)))) := by
  rw [heboTrace, historyLines_append, historyLines_append]
  have h1 : historyLines
      [.eval (defaultConfig knobs) 0,
       .observe (tunableRestrict (defaultConfig knobs) knobs),
       .writeHistory (defaultEntry knobs (perfOf 0))] =
      [defaultEntry knobs (perfOf 0)] := rfl
  have h3 : historyLines [HeboEvent.writeBestConfig] = [] := rfl
  have h2 : ∀ l : List ℕ,
      historyLines ((l.map (heboIterEvents knobs suggestions perfOf)).flatten) =
        l.map (fun i => loopEntry (loopConfig knobs suggestions i)
          (negObjective (perfOf (i + 1)))) := by
    intro l
    induction l with
    | nil => rfl
    | cons a l ih =>
      rw [List.map_cons, List.flatten_cons, historyLines_append, ih]
      rfl
  rw [h1, h3, h2, List.append_nil]
  rfl

/-- C3: the HEBO strategy evaluates the configuration built from every
knob's default value at iteration 0, observes that default point restricted
to the tunable parameters before any call to suggest, and the first line of
runhistory.jsonl has `note = "DEFAULT_CONFIG"` and `iteration = 0`. -/
theorem C3_hebo_baseline (knobs : List (String × KnobDetail))
    (suggestions : ℕ → List (String × ℚ)) (perfOf : ℕ → ℚ) (runcount : ℕ) :
    (heboTrace knobs suggestions perfOf runcount)[0]? =
      some (.eval (defaultConfig knobs) 0) ∧
    defaultConfig knobs = knobs.map (fun p => (p.1, p.2.default)) ∧
    (heboTrace knobs suggestions perfOf runcount)[1]? =
      some (.observe (tunableRestrict (defaultConfig knobs) knobs)) ∧
    (∀ k, (heboTrace knobs suggestions perfOf runcount)[k]? =
      some HeboEvent.suggest → 2 ≤ k) ∧
    (historyLines (heboTrace knobs suggestions perfOf runcount)).head? =
      some (defaultEntry knobs (perfOf 0)) ∧
    (defaultEntry knobs (perfOf 0)).note = some "DEFAULT_CONFIG" ∧
    (defaultEntry knobs (perfOf 0)).iteration = some 0 := by
  refine ⟨rfl, rfl, rfl, ?_, ?_, rfl, rfl⟩
  · intro k hk
    match k with
    | 0 => simp [heboTrace] at hk
    | 1 => simp [heboTrace] at hk
    | k + 2 => omega
  · rw [historyLines_heboTrace]
    rfl

/-- C3 witness: a concrete one-knob, one-iteration HEBO run starts with the
default evaluation and its first history line is the default entry. -/
theorem C3_hebo_baseline_witness :
    (heboTrace [("work_mem", ⟨"integer", 1, 10, 4⟩)] (fun _ => [("work_mem", 7)])
        (fun _ => 2) 1)[0]? =
      some (.eval (defaultConfig [("work_mem", ⟨"integer", 1, 10, 4⟩)]) 0) ∧
    (historyLines (heboTrace [("work_mem", ⟨"integer", 1, 10, 4⟩)]
        (fun _ => [("work_mem", 7)]) (fun _ => 2) 1)).head? =
      some (defaultEntry [("work_mem", ⟨"integer", 1, 10, 4⟩)] 2) :=
  ⟨(C3_hebo_baseline [("work_mem", ⟨"integer", 1, 10, 4⟩)]
      (fun _ => [("work_mem", 7)]) (fun _ => 2) 1).1,
   (C3_hebo_baseline [("work_mem", ⟨"integer", 1, 10, 4⟩)]
      (fun _ => [("work_mem", 7)]) (fun _ => 2) 1).2.2.2.2.1⟩

/-! ## Run-history persistence shape (claim C8) -/

/-- The JSON keys of each value object in the serialised SMAC RunHistory
(`runhistory_to_json`, tuner.py lines 281-286). -/
def smacRunValueKeys : List String :=
  ["cost", "time", "status", "additional_info"]

/-- Example knob list used to exhibit a concrete HEBO run. -/
def knobsEx : List (String × KnobDetail) :=
  [("shared_buffers", ⟨"integer", 1, 10, 4⟩)]

/-- Example suggestion oracle for the concrete HEBO run. -/
def suggEx : ℕ → List (String × ℚ) :=
  fun _ => [("shared_buffers", 5)]

/-- Example per-iteration performance for the concrete HEBO run. -/
def perfEx : ℕ → ℚ :=
  fun _ => 2

/-- C8 counterexample: in a concrete HEBO run, the second persisted
run-history object (the loop iteration's entry) has keys
`["config", "cost"]` only — it contains no `iteration` field, refuting the
claim that every persisted run-history object contains an iteration
field. -/
theorem C8_counterexample :
    (historyLines (heboTrace knobsEx suggEx perfEx 1))[1]? =
      some (loopEntry (loopConfig knobsEx suggEx 0) (negObjective (perfEx 1))) ∧
    entryKeys (loopEntry (loopConfig knobsEx suggEx 0) (negObjective (perfEx 1))) =
      ["config", "cost"] ∧
    "iteration" ∉
      entryKeys (loopEntry (loopConfig knobsEx suggEx 0) (negObjective (perfEx 1))) := by
  refine ⟨?_, rfl, ?_⟩
  · rw [historyLines_heboTrace]
    rfl
  · rw [show entryKeys (loopEntry (loopConfig knobsEx suggEx 0)
      (negObjective (perfEx 1))) = ["config", "cost"] from rfl]
    simp

/-- C8 (amended): HEBO persists the run history as JSON-lines under the
per-workload output directory — the iteration-0 entry with keys
`{iteration, config, cost, performance, note}` and each loop entry with
keys `{config, cost}` only — and ends by writing best_config.json; every
persisted run-history object contains a `cost` field, but only the
iteration-0 entry contains an `iteration` field; the SMAC strategy
serialises its RunHistory as a single JSON object keyed by run key whose
value objects have keys `{cost, time, status, additional_info}`. -/
theorem C8_amended (knobs : List (String × KnobDetail))
    (suggestions : ℕ → List (String × ℚ)) (perfOf : ℕ → ℚ) (runcount : ℕ) :
    (∀ e ∈ historyLines (heboTrace knobs suggestions perfOf runcount),
      "cost" ∈ entryKeys e) ∧
    (historyLines (heboTrace knobs suggestions perfOf runcount)).head? =
      some (defaultEntry knobs (perfOf 0)) ∧
    entryKeys (defaultEntry knobs (perfOf 0)) =
      ["iteration", "config", "cost", "performance", "note"] ∧
    (∀ e ∈ (historyLines (heboTrace knobs suggestions perfOf runcount)).tail,
      entryKeys e = ["config", "cost"]) ∧
    (heboTrace knobs suggestions perfOf runcount).getLast? =
      some HeboEvent.writeBestConfig ∧
    "cost" ∈ smacRunValueKeys ∧ "iteration" ∉ smacRunValueKeys := by
  refine ⟨?_, ?_, rfl, ?_, ?_, by simp [smacRunValueKeys], by simp [smacRunValueKeys]⟩
  · intro e he
    rw [historyLines_heboTrace] at he
    rcases List.mem_cons.mp he with rfl | hmem
    · simp [entryKeys, defaultEntry]
    · rcases List.mem_map.mp hmem with ⟨i, -, rfl⟩
      simp [entryKeys, loopEntry]
  · rw [historyLines_heboTrace]
    rfl
  · intro e he
    rw [historyLines_heboTrace, List.tail_cons] at he
    rcases List.mem_map.mp he with ⟨i, -, rfl⟩
    rfl
  · rw [heboTrace]
    rw [List.getLast?_append]
    rfl

/-- C8 amended witness: in the concrete one-iteration HEBO run, every
persisted history object carries a `cost` key and every post-default entry
has exactly the keys `config` and `cost`. -/
theorem C8_amended_witness :
    "cost" ∈ entryKeys (defaultEntry knobsEx (perfEx 0)) ∧
    (∀ e ∈ (historyLines (heboTrace knobsEx suggEx perfEx 1)).tail,
      entryKeys e = ["config", "cost"]) :=
  ⟨(C8_amended knobsEx suggEx perfEx 1).1 (defaultEntry knobsEx (perfEx 0))
      (by rw [historyLines_heboTrace]; exact List.mem_cons_self _ _),
   (C8_amended knobsEx suggEx perfEx 1).2.2.2.1⟩

end E2ETune
